import Mathlib

/-
Verification of the VidStream backend request handlers.

The handlers in src/src/controllers/video.contoller.js, src/src/routes/video.routes.js
and the like schema in the model files are embedded shallowly: the document store is a
list of records per collection, ObjectId values are natural numbers (modelled after the
string id has passed the mongoose ObjectId.isValid check that every handler performs
first), and each handler is a pure function from the store and the request data to an
Except value carrying either the ApiError the handler throws or the new store together
with the response payload.
-/

deriving instance DecidableEq for Except

/-- Response error as thrown via ApiError(status, message) and surfaced by asyncHandler.
Database driver errors that the handlers do not catch surface as status 500. -/
structure ApiErr where
  status : Nat
  message : String
deriving DecidableEq

/-- MongoDB duplicate-key rejection (E11000) of an insert that violates a unique index.
The handlers do not catch it, so asyncHandler surfaces it as a 500 response. -/
def e11000 : ApiErr := ⟨500, "E11000 duplicate key error"⟩

/-- JavaScript runtime values as far as the embedded handlers inspect them: string
primitives and mongoose ObjectId objects. -/
inductive JsVal where
  | jsString : String → JsVal
  | jsObjectId : Nat → JsVal
deriving DecidableEq

/-- JavaScript strict equality (triple equals) as exercised by this codebase: two string
primitives compare by value, and a string primitive never strictly equals an ObjectId
object because their runtime types differ. (Strict equality of two distinct ObjectId
objects would be reference equality and is false as well; no handler in this codebase
compares two ObjectId objects with strict equality.) -/
def jsStrictEq : JsVal → JsVal → Bool
  | .jsString a, .jsString b => a == b
  | _, _ => false

/-- JavaScript strict inequality. -/
def jsStrictNe (a b : JsVal) : Bool := !jsStrictEq a b

/-- Model of ObjectId.toString: an injective rendering of the id. -/
def objectIdToString (n : Nat) : String := toString n

/-- Whitespace as stripped by JavaScript String.prototype.trim (the common
characters; the exotic Unicode space classes never occur in the claims). -/
def isJsSpace (c : Char) : Bool :=
  c == ' ' || c == '\t' || c == '\n' || c == '\r' || c == '\u000b' || c == '\u000c'

/-- Model of JavaScript String.prototype.trim: strip leading and trailing
whitespace. -/
def jsTrim (s : String) : String :=
  ⟨((s.data.dropWhile isJsSpace).reverse.dropWhile isJsSpace).reverse⟩

/-- Model of the JavaScript pattern x?.trim() used as a truthiness test and value:
an absent field and an all-whitespace string are both falsy, otherwise the trimmed
string is produced. -/
def jsOptTrim : Option String → Option String
  | none => none
  | some s => if jsTrim s == "" then none else some (jsTrim s)

/-- Integer value of a list of decimal digit characters. -/
def decDigitsVal (ds : List Char) : Int :=
  ds.foldl (fun a c => a * 10 + ((c.toNat : Int) - ('0'.toNat : Int))) 0

/-- Model of JavaScript parseInt on a string: skip leading whitespace, read an optional
sign and then leading decimal digits; with no leading digits the result is NaN,
modelled as none. -/
def jsParseInt (s : String) : Option Int :=
  let cs := s.data.dropWhile (fun c => c == ' ' || c == '\t' || c == '\n' || c == '\r')
  match cs with
  | '-' :: rest =>
      let ds := rest.takeWhile Char.isDigit
      if ds.isEmpty then none else some (-(decDigitsVal ds))
  | '+' :: rest =>
      let ds := rest.takeWhile Char.isDigit
      if ds.isEmpty then none else some (decDigitsVal ds)
  | _ =>
      let ds := cs.takeWhile Char.isDigit
      if ds.isEmpty then none else some (decDigitsVal ds)

/-- A query-string parameter: absent from the URL, or present as a string. -/
inductive QueryVal where
  | missing : QueryVal
  | strVal : String → QueryVal
deriving DecidableEq

/-- The page value a listing controller passes to the pagination plugin: destructuring
with default 1 makes a missing parameter the number 1 (and parseInt of the number 1 is
1 again); a present parameter goes through parseInt, whose NaN outcome is none. -/
def pageNumberOf : QueryVal → Option Int
  | .missing => some 1
  | .strVal s => jsParseInt s

/-- The limit value a listing controller passes to the pagination plugin, with
destructuring default 10. -/
def limitNumberOf : QueryVal → Option Int
  | .missing => some 10
  | .strVal s => jsParseInt s

/-- Modelled from the spec: the pagination adapter is the mongoose-aggregate-paginate-v2
plugin, whose source is not part of this repository; per spec section 4.3 a non-numeric
(NaN) or missing page value coerces to the default 1. -/
def adapterCoercePage (p : Option Int) : Int := p.getD 1

/-- Modelled from the spec: per spec section 4.3 a non-numeric (NaN) or missing limit
value coerces to the default 10. -/
def adapterCoerceLimit (l : Option Int) : Int := l.getD 10

/-- Page value effectively used by a paginated listing for a given page query
parameter. -/
def effectivePage (q : QueryVal) : Int := adapterCoercePage (pageNumberOf q)

/-- Limit value effectively used by a paginated listing for a given limit query
parameter. -/
def effectiveLimit (q : QueryVal) : Int := adapterCoerceLimit (limitNumberOf q)

/-- Page descriptor returned by a paginated listing, with the neutral field names of
spec section 4.3. -/
structure PageResult (α : Type) where
  items : List α
  page : Nat
  limit : Nat
  totalItems : Nat
  totalPages : Nat
deriving DecidableEq

/-- Modelled from the spec: the slicing step of the pagination adapter
(mongoose-aggregate-paginate-v2, not part of this repository). The input list is the
filtered, sorted pre-pagination result set; the adapter returns the page-th slice of
size limit, the total number of filtered items, and the number of pages as the ceiling
of totalItems over limit (spec section 4.3). -/
def paginate (l : List α) (page limit : Nat) : PageResult α :=
  { items := (l.drop ((page - 1) * limit)).take limit
  , page := page
  , limit := limit
  , totalItems := l.length
  , totalPages := (l.length + limit - 1) / limit }

/-- Remove the first element satisfying p, as MongoDB deleteOne on a filter does. -/
def deleteFirstBy (p : α → Bool) : List α → List α
  | [] => []
  | x :: xs => if p x then xs else x :: deleteFirstBy p xs

/-- Replace the first element satisfying p, as a MongoDB single-document update on a
filter does. -/
def replaceFirstBy (p : α → Bool) (y : α) : List α → List α
  | [] => []
  | x :: xs => if p x then y :: xs else x :: replaceFirstBy p y xs

/-- Insert x into a list sorted by a numeric key in descending order. -/
def insertKeyDesc (key : α → Nat) (x : α) : List α → List α
  | [] => [x]
  | y :: ys => if key y ≤ key x then x :: y :: ys else y :: insertKeyDesc key x ys

/-- Sort a list by a numeric key in descending order; models the sort stage of an
aggregation pipeline (the exact order is irrelevant to the stated claims, membership
is what matters). -/
def sortByKeyDesc (key : α → Nat) : List α → List α
  | [] => []
  | x :: xs => insertKeyDesc key x (sortByKeyDesc key xs)

/-- A document of the Like collection (src/unnamed/part_000, likeSchema): at most one of
the video, comment and tweet references is set by the handlers, likedBy is the liking
user, createdAt comes from the schema timestamps. -/
structure LikeRec where
  id : Nat
  video : Option Nat
  comment : Option Nat
  tweet : Option Nat
  likedBy : Nat
  createdAt : Nat
deriving DecidableEq

/-- The slice of the store the three toggle handlers touch: the ids of the existing
target documents (each handler only selects the id of the target to check existence)
and the Like collection. nextId is the next free Like primary key. -/
structure LikeStore where
  videoIds : List Nat
  commentIds : List Nat
  tweetIds : List Nat
  likes : List LikeRec
  nextId : Nat
deriving DecidableEq

/-- The filter of Like.findOne in toggleVideoLike: a like on this video by this user. -/
def isVideoLikeBy (videoId userId : Nat) (r : LikeRec) : Bool :=
  r.video == some videoId && r.likedBy == userId

/-- The filter of Like.findOne in toggleCommentLike. -/
def isCommentLikeBy (commentId userId : Nat) (r : LikeRec) : Bool :=
  r.comment == some commentId && r.likedBy == userId

/-- The filter of Like.findOne in toggleTweetLike. -/
def isTweetLikeBy (tweetId userId : Nat) (r : LikeRec) : Bool :=
  r.tweet == some tweetId && r.likedBy == userId

/-- Collision predicate of the unique index likeSchema.index on (video, likedBy):
MongoDB indexes a missing video field as null, so two records clash exactly when their
video fields (absent included) and their likedBy fields agree. -/
def likeKeyClash (a b : LikeRec) : Bool :=
  a.video == b.video && a.likedBy == b.likedBy

/-- Like.countDocuments with filter (video: videoId). -/
def countVideoLikes (likes : List LikeRec) (videoId : Nat) : Nat :=
  (likes.filter (fun r => r.video == some videoId)).length

/-- Like.countDocuments with filter (comment: commentId). -/
def countCommentLikes (likes : List LikeRec) (commentId : Nat) : Nat :=
  (likes.filter (fun r => r.comment == some commentId)).length

/-- Like.countDocuments with filter (tweet: tweetId). -/
def countTweetLikes (likes : List LikeRec) (tweetId : Nat) : Nat :=
  (likes.filter (fun r => r.tweet == some tweetId)).length

/-- Response payload of the toggle handlers. -/
structure ToggleResult where
  isLiked : Bool
  totalLikes : Nat
deriving DecidableEq

/-- Insert a Like document, enforcing the unique index on (video, likedBy): the insert
is rejected with a duplicate-key error when an existing record clashes. -/
def likeCreate (s : LikeStore) (r : LikeRec) : Except ApiErr LikeStore :=
  if s.likes.any (fun x => likeKeyClash x r) then
    .error e11000
  else
    .ok { s with likes := s.likes ++ [r], nextId := s.nextId + 1 }

/-- Embedding of toggleVideoLike (src/src/controllers/video.contoller.js, lines
310-367): check the video exists (findById selecting only the id), look for an
existing like of the pair; if present delete it by primary key and answer
isLiked false with the recomputed count, otherwise create a like record and answer
isLiked true with the recomputed count. The now argument is the schema timestamp of a
created record; the ObjectId.isValid check on the raw id string happens before the
store is touched and is upstream of this model. -/
def toggleVideoLike (s : LikeStore) (videoId userId now : Nat) :
    Except ApiErr (LikeStore × ToggleResult) :=
  if !(s.videoIds.contains videoId) then
    .error ⟨404, "Video not found"⟩
  else
    match s.likes.find? (isVideoLikeBy videoId userId) with
    | some existingLike =>
        let s' := { s with likes := deleteFirstBy (fun r => r.id == existingLike.id) s.likes }
        .ok (s', ⟨false, countVideoLikes s'.likes videoId⟩)
    | none =>
        let newLike : LikeRec := ⟨s.nextId, some videoId, none, none, userId, now⟩
        match likeCreate s newLike with
        | .error e => .error e
        | .ok s' => .ok (s', ⟨true, countVideoLikes s'.likes videoId⟩)

/-- Embedding of toggleCommentLike (src/src/controllers/video.contoller.js, lines
369-426); the created record references only the comment, its video field is absent. -/
def toggleCommentLike (s : LikeStore) (commentId userId now : Nat) :
    Except ApiErr (LikeStore × ToggleResult) :=
  if !(s.commentIds.contains commentId) then
    .error ⟨404, "Comment not found"⟩
  else
    match s.likes.find? (isCommentLikeBy commentId userId) with
    | some existingLike =>
        let s' := { s with likes := deleteFirstBy (fun r => r.id == existingLike.id) s.likes }
        .ok (s', ⟨false, countCommentLikes s'.likes commentId⟩)
    | none =>
        let newLike : LikeRec := ⟨s.nextId, none, some commentId, none, userId, now⟩
        match likeCreate s newLike with
        | .error e => .error e
        | .ok s' => .ok (s', ⟨true, countCommentLikes s'.likes commentId⟩)

/-- Embedding of toggleTweetLike (src/src/controllers/video.contoller.js, lines
428-485); the created record references only the tweet, its video field is absent. -/
def toggleTweetLike (s : LikeStore) (tweetId userId now : Nat) :
    Except ApiErr (LikeStore × ToggleResult) :=
  if !(s.tweetIds.contains tweetId) then
    .error ⟨404, "Tweet not found"⟩
  else
    match s.likes.find? (isTweetLikeBy tweetId userId) with
    | some existingLike =>
        let s' := { s with likes := deleteFirstBy (fun r => r.id == existingLike.id) s.likes }
        .ok (s', ⟨false, countTweetLikes s'.likes tweetId⟩)
    | none =>
        let newLike : LikeRec := ⟨s.nextId, none, none, some tweetId, userId, now⟩
        match likeCreate s newLike with
        | .error e => .error e
        | .ok s' => .ok (s', ⟨true, countTweetLikes s'.likes tweetId⟩)

/-- Primary keys of the Like collection are distinct (MongoDB guarantees distinct
ids inside one collection). -/
def DistinctIds (l : List LikeRec) : Prop :=
  l.Pairwise (fun a b => a.id ≠ b.id)

/-- No two Like documents clash on the unique index key (video, likedBy): every
database-reachable state satisfies this, the index enforces it on insert. -/
def DistinctKeys (l : List LikeRec) : Prop :=
  l.Pairwise (fun a b => likeKeyClash a b = false)

/-- Every stored Like id is below the next free primary key. -/
def IdsBelow (l : List LikeRec) (n : Nat) : Prop :=
  ∀ r ∈ l, r.id < n

/-- Well-formedness of the Like slice of the store: exactly the facts the database
guarantees for every reachable state. -/
def WfLikes (s : LikeStore) : Prop :=
  DistinctIds s.likes ∧ DistinctKeys s.likes ∧ IdsBelow s.likes s.nextId

/-- A media asset reference as stored on a video: URL plus storage-provider id. -/
structure MediaRef where
  url : String
  public_id : String
deriving DecidableEq

/-- A document of the Video collection, with the fields the embedded handlers read or
write (the video model file is not part of src; the fields are the ones the
controllers use). -/
structure Video where
  id : Nat
  title : String
  description : String
  duration : Nat
  views : Nat
  isPublished : Bool
  videoFile : MediaRef
  thumbnail : MediaRef
  owner : Nat
  createdAt : Nat
deriving DecidableEq

/-- Case-insensitive substring test on character lists. -/
def hasSubListCI (pat : List Char) : List Char → Bool
  | [] => pat.isEmpty
  | c :: rest => pat.isPrefixOf (c :: rest) || hasSubListCI pat rest

/-- Model of the title filter (regex: query, options: i) of getAllVideos as a
case-insensitive substring match; no claim depends on further regex features. -/
def titleMatches (query : Option String) (title : String) : Bool :=
  match query with
  | none => true
  | some q => hasSubListCI q.toLower.data title.toLower.data

/-- Owner filter of getAllVideos: present only when a userId query parameter was
supplied. -/
def ownerMatches (userId : Option Nat) (v : Video) : Bool :=
  match userId with
  | none => true
  | some u => v.owner == u

/-- Embedding of the getAllVideos pipeline (src/src/controllers/video.contoller.js,
lines 8-86): match isPublished true plus the optional title and owner filters, sort
(default createdAt descending; the sortBy and sortType parameters only change the sort
key and direction, which no claim depends on), then paginate. The user lookup stage
only decorates each video with display fields of its owner and is not modelled. -/
def getAllVideos (videos : List Video) (query : Option String) (userId : Option Nat)
    (page limit : Nat) : PageResult Video :=
  let matched := videos.filter (fun v =>
    v.isPublished && titleMatches query v.title && ownerMatches userId v)
  paginate (sortByKeyDesc (fun v => v.createdAt) matched) page limit

/-- Embedding of getVideoById (src/src/controllers/video.contoller.js, lines 140-166):
find the video, answer 404 when absent or unpublished, otherwise increment its view
count, persist the document back by primary key, and return it. The populate of the
owner display fields is decoration and not modelled. -/
def getVideoById (videos : List Video) (videoId : Nat) :
    Except ApiErr (List Video × Video) :=
  match videos.find? (fun v => v.id == videoId) with
  | none => .error ⟨404, "video not found"⟩
  | some video =>
    if !video.isPublished then
      .error ⟨404, "video not found"⟩
    else
      let video' := { video with views := video.views + 1 }
      .ok (replaceFirstBy (fun v => v.id == videoId) video' videos, video')

/-- Embedding of the getLikedVideos pipeline (src/src/controllers/video.contoller.js,
lines 487-554): match the requesting user with a non-null video reference, sort by the
like creation date descending, look up the video document (the unwind stage drops a
like whose video document is missing), keep only published videos, replace the root by
the video document, then paginate. -/
def getLikedVideos (likes : List LikeRec) (videos : List Video) (userId : Nat)
    (page limit : Nat) : PageResult Video :=
  let myVideoLikes := likes.filter (fun r => r.likedBy == userId && r.video != none)
  let sorted := sortByKeyDesc (fun r => r.createdAt) myVideoLikes
  let joined := sorted.filterMap
    (fun r => r.video.bind (fun vid => videos.find? (fun v => v.id == vid)))
  let published := joined.filter (fun v => v.isPublished)
  paginate published page limit

/-- A document of the Comment collection with the fields deleteComment reads. -/
structure CommentRec where
  id : Nat
  content : String
  video : Nat
  owner : Nat
deriving DecidableEq

/-- Embedding of deleteComment (src/src/routes/video.routes.js, lines 169-197): find
the comment with its parent video populated, then the guard of the source line 186
compares comment.owner.toString() and comment.video.owner.toString(), which are string
primitives, against req.user._id, which is the ObjectId of the authenticated user
document, with JavaScript strict inequality; only when both comparisons say unequal is
the 403 raised, otherwise the comment is deleted. When the populated parent video is
missing, reading .owner of null raises a TypeError that asyncHandler surfaces as 500. -/
def deleteComment (comments : List CommentRec) (videos : List Video)
    (commentId userId : Nat) : Except ApiErr (List CommentRec) :=
  match comments.find? (fun c => c.id == commentId) with
  | none => .error ⟨404, "Comment not found"⟩
  | some comment =>
    match videos.find? (fun v => v.id == comment.video) with
    | none => .error ⟨500, "TypeError: cannot read owner of null"⟩
    | some video =>
      if jsStrictNe (.jsString (objectIdToString comment.owner)) (.jsObjectId userId)
          && jsStrictNe (.jsString (objectIdToString video.owner)) (.jsObjectId userId) then
        .error ⟨403, "You are not allowed to delete comment"⟩
      else
        .ok (deleteFirstBy (fun c => c.id == commentId) comments)

/-- A document of the Playlist collection with the fields the handlers use. -/
structure PlaylistRec where
  id : Nat
  name : String
  description : String
  videos : List Nat
  owner : Nat
deriving DecidableEq

/-- Embedding of createPlaylist (src/src/routes/video.routes.js, lines 211-246):
reject a missing or all-whitespace name or description, reject when the same owner
already has a playlist with the same trimmed name, otherwise create the playlist with
trimmed fields and no videos. newId is the primary key the store assigns. -/
def createPlaylist (playlists : List PlaylistRec) (userId newId : Nat)
    (name description : Option String) :
    Except ApiErr (List PlaylistRec × PlaylistRec) :=
  match jsOptTrim name, jsOptTrim description with
  | some nameT, some descT =>
    if playlists.any (fun p => p.name == nameT && p.owner == userId) then
      .error ⟨400, "Playlist with same name already exists"⟩
    else
      let p : PlaylistRec := ⟨newId, nameT, descT, [], userId⟩
      .ok (playlists ++ [p], p)
  | _, _ => .error ⟨400, "Name and description are required"⟩

/-- Embedding of deletePlaylist (src/src/routes/video.routes.js, lines 446-476): after
checking the playlist exists, the source calls Playlist.findByIdAndDelete with the
object (_id: playlistId, owner: req.user._id) as the id argument; mongoose casts that
object to an ObjectId by taking its _id field, so the owner condition is dropped and
the effective filter is the _id alone. The userId argument is therefore unused past
this point, exactly as in the source. -/
def deletePlaylist (playlists : List PlaylistRec) (playlistId userId : Nat) :
    Except ApiErr (List PlaylistRec) :=
  match playlists.find? (fun p => p.id == playlistId) with
  | none => .error ⟨404, "Playlist not found"⟩
  | some _ =>
    match playlists.find? (fun p => p.id == playlistId) with
    | none => .error ⟨404, "Playlist not found or unauthorized"⟩
    | some _ => .ok (deleteFirstBy (fun p => p.id == playlistId) playlists)

/-- Embedding of updatePlaylist (src/src/routes/video.routes.js, lines 478-527): build
the update object from the present, non-whitespace fields, reject an empty update,
then call Playlist.findByIdAndUpdate with the object (_id: playlistId, owner:
req.user._id) as the id argument; as in deletePlaylist the mongoose ObjectId cast
keeps only the _id field, so the owner condition is dropped and any requester updates
the playlist. No uniqueness check on the new name is performed. -/
def updatePlaylist (playlists : List PlaylistRec) (playlistId userId : Nat)
    (name description : Option String) :
    Except ApiErr (List PlaylistRec × PlaylistRec) :=
  let nameT := jsOptTrim name
  let descT := jsOptTrim description
  if nameT.isNone && descT.isNone then
    .error ⟨400, "Required atleast on field to update playlist"⟩
  else
    match playlists.find? (fun p => p.id == playlistId) with
    | none => .error ⟨404, "Playlist not found or you are not authorized"⟩
    | some p =>
      let p' := { p with name := nameT.getD p.name, description := descT.getD p.description }
      .ok (replaceFirstBy (fun q => q.id == playlistId) p' playlists, p')

/-- The per-owner name uniqueness invariant of the Playlist collection (spec section
3): no two playlists of one owner share a name. -/
def NamesUniquePerOwner (l : List PlaylistRec) : Prop :=
  l.Pairwise (fun p q => p.owner ≠ q.owner ∨ p.name ≠ q.name)

lemma find?_split {α : Type} {p : α → Bool} :
    ∀ {l : List α} {a : α}, l.find? p = some a →
      p a = true ∧ ∃ l₁ l₂, l = l₁ ++ a :: l₂ ∧ ∀ x ∈ l₁, p x = false := by
  intro l
  induction l with
  | nil => intro a h; simp at h
  | cons x xs ih =>
    intro a h
    by_cases hx : p x = true
    · rw [List.find?_cons_of_pos _ hx] at h
      cases h
      exact ⟨hx, [], xs, rfl, by simp⟩
    · have hx' : p x = false := by simpa using hx
      rw [List.find?_cons_of_neg _ hx] at h
      obtain ⟨hp, l₁, l₂, rfl, hl₁⟩ := ih h
      refine ⟨hp, x :: l₁, l₂, rfl, ?_⟩
      intro y hy
      rcases List.mem_cons.mp hy with rfl | hy
      · exact hx'
      · exact hl₁ y hy

lemma deleteFirstBy_append_cons {α : Type} {p : α → Bool} {l₁ : List α} {a : α}
    (h₁ : ∀ x ∈ l₁, p x = false) (ha : p a = true) (l₂ : List α) :
    deleteFirstBy p (l₁ ++ a :: l₂) = l₁ ++ l₂ := by
  induction l₁ with
  | nil => simp [deleteFirstBy, ha]
  | cons x xs ih =>
    have hx : p x = false := h₁ x (by simp)
    simp only [List.cons_append, deleteFirstBy, hx, List.append_eq]
    simp only [Bool.false_eq_true, if_false]
    rw [ih (fun y hy => h₁ y (by simp [hy]))]

lemma replaceFirstBy_append_cons {α : Type} {p : α → Bool} {l₁ : List α} {a y : α}
    (h₁ : ∀ x ∈ l₁, p x = false) (ha : p a = true) (l₂ : List α) :
    replaceFirstBy p y (l₁ ++ a :: l₂) = l₁ ++ y :: l₂ := by
  induction l₁ with
  | nil => simp [replaceFirstBy, ha]
  | cons x xs ih =>
    have hx : p x = false := h₁ x (by simp)
    simp only [List.cons_append, replaceFirstBy, hx, List.append_eq]
    simp only [Bool.false_eq_true, if_false]
    rw [ih (fun z hz => h₁ z (by simp [hz]))]

lemma find?_append_of_forall_false {α : Type} {p : α → Bool} {l₁ : List α}
    (h : ∀ x ∈ l₁, p x = false) (l₂ : List α) :
    (l₁ ++ l₂).find? p = l₂.find? p := by
  induction l₁ with
  | nil => simp
  | cons x xs ih =>
    have hx : p x = false := h x (by simp)
    simp only [List.cons_append]
    rw [List.find?_cons_of_neg _ (by simp [hx])]
    exact ih (fun y hy => h y (by simp [hy]))

lemma mem_insertKeyDesc {α : Type} {key : α → Nat} {x a : α} {l : List α} :
    a ∈ insertKeyDesc key x l ↔ a = x ∨ a ∈ l := by
  induction l with
  | nil => simp [insertKeyDesc]
  | cons y ys ih =>
    by_cases h : key y ≤ key x
    · simp [insertKeyDesc, h]
    · simp only [insertKeyDesc, if_neg h, List.mem_cons, ih]
      tauto

lemma mem_sortByKeyDesc {α : Type} {key : α → Nat} {a : α} {l : List α} :
    a ∈ sortByKeyDesc key l ↔ a ∈ l := by
  induction l with
  | nil => simp [sortByKeyDesc]
  | cons x xs ih =>
    simp only [sortByKeyDesc, mem_insertKeyDesc, ih, List.mem_cons]

lemma mem_paginate_items {α : Type} {l : List α} {page limit : Nat} {x : α}
    (h : x ∈ (paginate l page limit).items) : x ∈ l := by
  simp only [paginate] at h
  exact (l.drop_sublist _).subset ((List.take_sublist _ _).subset h)

/-- C1: the code contradicts the claim for comment (and tweet) targets. In the store
where user 7 already holds a like record on existing comment 1 (a record whose video
field is absent), a toggle-like call by user 7 on the different existing comment 2
finds no like for the pair, attempts the insert, and the insert is rejected by the
unique index on (video, likedBy) - both records index video as null - so the call
fails with a duplicate-key server error instead of inserting a record and reporting
LIKED. -/
theorem toggleCommentLike_insert_rejected_at_failing_input :
    toggleCommentLike ⟨[], [1, 2], [], [⟨0, none, some 1, none, 7, 0⟩], 1⟩ 2 7 5 =
      .error e11000 := by
  rfl

/-- C3: the code contradicts the claim. The guard of deleteComment compares the string
comment.owner.toString() against the ObjectId req.user._id with JavaScript strict
inequality, which is always true across types, so deleteComment answers 403 for every
requester. Here the requester, user 5, is both the owner of comment 1 and the owner of
its parent video 2, and the call still fails with the authorization error instead of
deleting the comment. -/
theorem deleteComment_rejects_owner_at_failing_input :
    deleteComment [⟨1, "nice", 2, 5⟩]
        [⟨2, "t", "d", 3, 0, true, ⟨"u", "p"⟩, ⟨"u2", "p2"⟩, 5, 0⟩] 1 5 =
      .error ⟨403, "You are not allowed to delete comment"⟩ := by
  rfl

/-- C6: the code contradicts the claim. deletePlaylist and updatePlaylist pass the
filter object with the owner condition as the id argument of findByIdAndDelete and
findByIdAndUpdate; the mongoose ObjectId cast keeps only the _id field, so the owner
condition is dropped. Requester 9, who is not the owner (user 5) of playlist 1,
deletes it with a success response, and likewise renames it, instead of receiving an
error that leaves the playlist unchanged. -/
theorem playlist_mutation_ignores_owner_at_failing_input :
    deletePlaylist [⟨1, "A", "d", [], 5⟩] 1 9 = .ok [] ∧
    updatePlaylist [⟨1, "A", "d", [], 5⟩] 1 9 (some "B") none =
      .ok ([⟨1, "B", "d", [], 5⟩], ⟨1, "B", "d", [], 5⟩) := by
  exact ⟨rfl, by decide⟩

/-- C5: for every paginated listing the page and limit values effectively used are the
defaults 1 and 10 when the query value is missing (the destructuring default) or when
it is a non-numeric string (parseInt yields NaN and the pagination adapter coerces it
to the default). -/
theorem pagination_page_limit_defaults :
    (effectivePage .missing = 1 ∧ effectiveLimit .missing = 10) ∧
    (∀ s : String, jsParseInt s = none →
      effectivePage (.strVal s) = 1 ∧ effectiveLimit (.strVal s) = 10) := by
  refine ⟨⟨rfl, rfl⟩, ?_⟩
  intro s hs
  simp [effectivePage, effectiveLimit, adapterCoercePage, adapterCoerceLimit,
    pageNumberOf, limitNumberOf, hs]

/-- Witness for C5 at the concrete non-numeric query value "abc". -/
theorem pagination_page_limit_defaults_witness :
    effectivePage (.strVal "abc") = 1 ∧ effectiveLimit (.strVal "abc") = 10 :=
  pagination_page_limit_defaults.2 "abc" (by decide)

/-- C2 counterexample: in the store where the pair (video 1, user 7) starts in state
LIKED (one like record exists), two successive toggle-like calls succeed but end with
isLiked true and the like record present again - the pair returns to LIKED, not to
NOT_LIKED. The total count does return to its initial value 1. -/
theorem toggleVideoLike_twice_from_liked_counterexample :
    toggleVideoLike ⟨[1], [], [], [⟨0, some 1, none, none, 7, 0⟩], 1⟩ 1 7 1 =
      .ok (⟨[1], [], [], [], 1⟩, ⟨false, 0⟩) ∧
    toggleVideoLike ⟨[1], [], [], [], 1⟩ 1 7 2 =
      .ok (⟨[1], [], [], [⟨1, some 1, none, none, 7, 2⟩], 2⟩, ⟨true, 1⟩) := by
  exact ⟨rfl, rfl⟩

/-- C4: for every filtered pre-pagination result list and all valid page and limit,
the page descriptor reports totalItems as the size of the filtered set, totalPages as
the ceiling of totalItems over limit (stated as: totalPages times limit covers
totalItems and totalPages is at most any k whose k times limit does), the returned
item count is at most limit, and a page beyond the last valid page yields an empty
item sequence rather than an error. The listings getAllVideos, getVideoComments and
getLikedVideos all produce their page descriptor through this adapter. -/
theorem paginate_page_descriptor {α : Type} (l : List α) (page limit k : Nat)
    (hp : 1 ≤ page) (hl : 1 ≤ limit) :
    (paginate l page limit).totalItems = l.length ∧
    (paginate l page limit).totalItems ≤ (paginate l page limit).totalPages * limit ∧
    ((paginate l page limit).totalItems ≤ k * limit →
        (paginate l page limit).totalPages ≤ k) ∧
    (paginate l page limit).items.length ≤ limit ∧
    ((paginate l page limit).totalPages < page → (paginate l page limit).items = []) := by
  have hcover : l.length ≤ ((l.length + limit - 1) / limit) * limit := by
    have hlt : (l.length + limit - 1) / limit < (l.length + limit - 1) / limit + 1 :=
      Nat.lt_succ_self _
    have h2 := (Nat.div_lt_iff_lt_mul hl).mp hlt
    rw [Nat.succ_mul] at h2
    generalize ((l.length + limit - 1) / limit) * limit = M at h2 ⊢
    omega
  refine ⟨rfl, hcover, ?_, ?_, ?_⟩
  · intro hk
    simp only [paginate] at hk ⊢
    by_contra hgt
    push_neg at hgt
    have hle := (Nat.le_div_iff_mul_le hl).mp hgt
    rw [Nat.succ_mul] at hle
    generalize hM : k * limit = M at hk hle
    omega
  · simp only [paginate, List.length_take]
    exact inf_le_left
  · intro hbeyond
    simp only [paginate] at hbeyond ⊢
    have h1 : (l.length + limit - 1) / limit ≤ page - 1 := by omega
    have h2 : l.length ≤ (page - 1) * limit :=
      le_trans hcover (Nat.mul_le_mul_right _ h1)
    rw [List.drop_eq_nil_of_le h2, List.take_nil]

/-- Witness for C4 at the list with three elements, page 2, limit 2, k 2. -/
theorem paginate_page_descriptor_witness :
    (paginate ([10, 20, 30] : List Nat) 2 2).totalItems = [10, 20, 30].length ∧
    (paginate ([10, 20, 30] : List Nat) 2 2).totalItems ≤
        (paginate ([10, 20, 30] : List Nat) 2 2).totalPages * 2 ∧
    ((paginate ([10, 20, 30] : List Nat) 2 2).totalItems ≤ 2 * 2 →
        (paginate ([10, 20, 30] : List Nat) 2 2).totalPages ≤ 2) ∧
    (paginate ([10, 20, 30] : List Nat) 2 2).items.length ≤ 2 ∧
    ((paginate ([10, 20, 30] : List Nat) 2 2).totalPages < 2 →
        (paginate ([10, 20, 30] : List Nat) 2 2).items = []) :=
  paginate_page_descriptor [10, 20, 30] 2 2 2 (by decide) (by decide)

/-- C9: getVideoById, although presented as a read, writes back the fetched video with
its view count incremented by exactly one: on any store in which the first video with
the requested id is published, the call succeeds, the returned document is that video
with views incremented and every other field unchanged, and the stored list is the
same list with only that document replaced by the incremented one - every other
entity is untouched. -/
theorem getVideoById_view_increment (l₁ l₂ : List Video) (v : Video) (videoId : Nat)
    (hfirst : ∀ x ∈ l₁, (x.id == videoId) = false)
    (hid : v.id = videoId) (hpub : v.isPublished = true) :
    getVideoById (l₁ ++ v :: l₂) videoId =
      .ok (l₁ ++ { v with views := v.views + 1 } :: l₂,
           { v with views := v.views + 1 }) := by
  have hpv : (v.id == videoId) = true := by simp [hid]
  have hfind : (l₁ ++ v :: l₂).find? (fun x => x.id == videoId) = some v := by
    rw [find?_append_of_forall_false hfirst]
    exact List.find?_cons_of_pos _ hpv
  unfold getVideoById
  rw [hfind]
  simp only [hpub, Bool.not_true, Bool.false_eq_true, if_false]
  rw [replaceFirstBy_append_cons hfirst hpv]

/-- Witness for C9 at a store with a single published video with three views. -/
theorem getVideoById_view_increment_witness :
    getVideoById [⟨1, "t", "d", 9, 3, true, ⟨"u", "p"⟩, ⟨"u2", "p2"⟩, 5, 0⟩] 1 =
      .ok ([⟨1, "t", "d", 9, 4, true, ⟨"u", "p"⟩, ⟨"u2", "p2"⟩, 5, 0⟩],
           ⟨1, "t", "d", 9, 4, true, ⟨"u", "p"⟩, ⟨"u2", "p2"⟩, 5, 0⟩) :=
  getVideoById_view_increment [] []
    ⟨1, "t", "d", 9, 3, true, ⟨"u", "p"⟩, ⟨"u2", "p2"⟩, 5, 0⟩ 1
    (by simp) rfl rfl

/-- C10: the only uniqueness constraint on likes is the compound index on
(video, likedBy), and comment and tweet likes store no video reference, so in every
index-consistent store each user holds at most one like record whose video reference
is absent; concretely, in the store where user 7 already likes comment 1, a toggle by
user 7 on the different target tweet 3 finds no like for that pair, attempts the
insert, and the insert is rejected by the constraint instead of creating a second
videoless like. -/
theorem single_videoless_like_per_user :
    (∀ l : List LikeRec, DistinctKeys l → ∀ u : Nat,
        (l.filter (fun r => r.video == none && r.likedBy == u)).length ≤ 1) ∧
    toggleTweetLike ⟨[], [1], [3], [⟨0, none, some 1, none, 7, 0⟩], 1⟩ 3 7 5 =
      .error e11000 := by
  constructor
  · intro l hd u
    induction l with
    | nil => simp
    | cons r t ih =>
      obtain ⟨hr, ht⟩ := List.pairwise_cons.mp hd
      by_cases hp : (r.video == none && r.likedBy == u) = true
      · rw [List.filter_cons, if_pos hp]
        have hrv : r.video = none := by
          have := (Bool.and_eq_true _ _).mp hp
          simpa using this.1
        have hru : r.likedBy = u := by
          have := (Bool.and_eq_true _ _).mp hp
          simpa using this.2
        have hnil : t.filter (fun x => x.video == none && x.likedBy == u) = [] := by
          apply List.filter_eq_nil_iff.mpr
          intro b hb hpb
          have hbv : b.video = none := by
            have := (Bool.and_eq_true _ _).mp hpb
            simpa using this.1
          have hbu : b.likedBy = u := by
            have := (Bool.and_eq_true _ _).mp hpb
            simpa using this.2
          have := hr b hb
          rw [likeKeyClash, hrv, hbv, hru, hbu] at this
          simp at this
        rw [hnil]
        simp
      · rw [List.filter_cons, if_neg hp]
        exact ih ht
  · rfl

/-- Witness for the universally quantified part of the C10 theorem, at the one-record
store of the concrete scenario. -/
theorem single_videoless_like_per_user_witness :
    (([⟨0, none, some 1, none, 7, 0⟩] : List LikeRec).filter
        (fun r => r.video == none && r.likedBy == 7)).length ≤ 1 :=
  single_videoless_like_per_user.1 [⟨0, none, some 1, none, 7, 0⟩]
    (List.pairwise_cons.mpr ⟨by simp, List.Pairwise.nil⟩) 7

/-- C8: a video whose publication flag is false never appears in a result: every video
in a getAllVideos page is published (the match stage filters on the flag), every video
a successful getVideoById call returns is published (an unpublished one answers 404
instead), and every video in a getLikedVideos page is published (the pipeline filters
the joined videos on the flag). -/
theorem unpublished_videos_invisible :
    (∀ (videos : List Video) (query : Option String) (userId : Option Nat)
        (page limit : Nat) (v : Video),
        v ∈ (getAllVideos videos query userId page limit).items → v.isPublished = true) ∧
    (∀ (videos : List Video) (videoId : Nat) (res : List Video × Video),
        getVideoById videos videoId = .ok res → res.2.isPublished = true) ∧
    (∀ (likes : List LikeRec) (videos : List Video) (userId page limit : Nat)
        (v : Video),
        v ∈ (getLikedVideos likes videos userId page limit).items →
          v.isPublished = true) := by
  refine ⟨?_, ?_, ?_⟩
  · intro videos query userId page limit v h
    have h1 := mem_paginate_items h
    have h2 := mem_sortByKeyDesc.mp h1
    have h3 := (List.mem_filter.mp h2).2
    exact ((Bool.and_eq_true _ _).mp ((Bool.and_eq_true _ _).mp h3).1).1
  · intro videos videoId res h
    unfold getVideoById at h
    cases hf : videos.find? (fun v => v.id == videoId) with
    | none => rw [hf] at h; cases h
    | some video =>
      rw [hf] at h
      by_cases hpub : video.isPublished = true
      · simp only [hpub, Bool.not_true, Bool.false_eq_true, if_false] at h
        cases h
        simp [hpub]
      · have hpub' : video.isPublished = false := by simpa using hpub
        simp only [hpub', Bool.not_false, if_true] at h
        cases h
  · intro likes videos userId page limit v h
    have h1 := mem_paginate_items h
    exact (List.mem_filter.mp h1).2

/-- Witness for C8: each conjunct applied at a concrete store holding one published
video with id 1 owned by user 5, liked by user 7. -/
theorem unpublished_videos_invisible_witness :
    (Video.mk 1 "t" "d" 9 3 true ⟨"u", "p"⟩ ⟨"u2", "p2"⟩ 5 0).isPublished = true ∧
    (Video.mk 1 "t" "d" 9 4 true ⟨"u", "p"⟩ ⟨"u2", "p2"⟩ 5 0).isPublished = true ∧
    (Video.mk 1 "t" "d" 9 3 true ⟨"u", "p"⟩ ⟨"u2", "p2"⟩ 5 0).isPublished = true := by
  refine ⟨?_, ?_, ?_⟩
  · exact unpublished_videos_invisible.1
      [Video.mk 1 "t" "d" 9 3 true ⟨"u", "p"⟩ ⟨"u2", "p2"⟩ 5 0] none none 1 10
      (Video.mk 1 "t" "d" 9 3 true ⟨"u", "p"⟩ ⟨"u2", "p2"⟩ 5 0) (by decide)
  · exact unpublished_videos_invisible.2.1
      [Video.mk 1 "t" "d" 9 3 true ⟨"u", "p"⟩ ⟨"u2", "p2"⟩ 5 0] 1
      ([Video.mk 1 "t" "d" 9 4 true ⟨"u", "p"⟩ ⟨"u2", "p2"⟩ 5 0],
       Video.mk 1 "t" "d" 9 4 true ⟨"u", "p"⟩ ⟨"u2", "p2"⟩ 5 0) (by decide)
  · exact unpublished_videos_invisible.2.2
      [⟨0, some 1, none, none, 7, 0⟩]
      [Video.mk 1 "t" "d" 9 3 true ⟨"u", "p"⟩ ⟨"u2", "p2"⟩ 5 0] 7 1 10
      (Video.mk 1 "t" "d" 9 3 true ⟨"u", "p"⟩ ⟨"u2", "p2"⟩ 5 0) (by decide)

/-- C7 (amended): createPlaylist does enforce per-owner trimmed-name uniqueness and
preserves the invariant - a duplicate (same owner, same trimmed name) is rejected with
the conflict error, and when the owner has no playlist of that trimmed name (in
particular when only another owner has it) the create succeeds and the store still
satisfies the invariant. updatePlaylist performs no such check (see the
counterexample). -/
theorem createPlaylist_keeps_names_unique (playlists : List PlaylistRec)
    (userId newId : Nat) (name desc : String)
    (hn : jsTrim name ≠ "") (hd : jsTrim desc ≠ "")
    (hu : NamesUniquePerOwner playlists) :
    ((∃ p ∈ playlists, p.owner = userId ∧ p.name = jsTrim name) →
        createPlaylist playlists userId newId (some name) (some desc) =
          .error ⟨400, "Playlist with same name already exists"⟩) ∧
    ((∀ p ∈ playlists, p.owner = userId → p.name ≠ jsTrim name) →
        createPlaylist playlists userId newId (some name) (some desc) =
          .ok (playlists ++ [⟨newId, jsTrim name, jsTrim desc, [], userId⟩],
               ⟨newId, jsTrim name, jsTrim desc, [], userId⟩) ∧
        NamesUniquePerOwner
          (playlists ++ [⟨newId, jsTrim name, jsTrim desc, [], userId⟩])) := by
  have hn' : (jsTrim name == "") = false := beq_eq_false_iff_ne.mpr hn
  have hd' : (jsTrim desc == "") = false := beq_eq_false_iff_ne.mpr hd
  constructor
  · rintro ⟨p, hp, howner, hname⟩
    have hany : playlists.any (fun q => q.name == jsTrim name && q.owner == userId)
        = true :=
      List.any_eq_true.mpr ⟨p, hp, by simp [hname, howner]⟩
    simp only [createPlaylist, jsOptTrim, hn', hd', Bool.false_eq_true, if_false,
      hany, if_true]
  · intro hnone
    have hany : playlists.any (fun q => q.name == jsTrim name && q.owner == userId)
        = false := by
      apply List.any_eq_false.mpr
      intro q hq hcl
      obtain ⟨h1, h2⟩ := (Bool.and_eq_true _ _).mp hcl
      exact hnone q hq (by simpa using h2) (by simpa using h1)
    constructor
    · simp only [createPlaylist, jsOptTrim, hn', hd', Bool.false_eq_true, if_false,
        hany]
    · apply List.pairwise_append.mpr
      refine ⟨hu, List.pairwise_singleton _ _, ?_⟩
      intro a ha b hb
      rw [List.mem_singleton.mp hb]
      by_cases hao : a.owner = userId
      · exact Or.inr (hnone a ha hao)
      · exact Or.inl hao

/-- Witness for C7: in the store where user 5 owns playlist "Favorites", creating
"Favorites" again for user 5 is the conflict error, and creating "Favorites" for
user 6 succeeds with the invariant intact. -/
theorem createPlaylist_keeps_names_unique_witness :
    (createPlaylist [⟨1, "Favorites", "x", [], 5⟩] 5 2 (some "Favorites") (some "x") =
        .error ⟨400, "Playlist with same name already exists"⟩) ∧
    (createPlaylist [⟨1, "Favorites", "x", [], 5⟩] 6 2 (some "Favorites") (some "x") =
        .ok ([⟨1, "Favorites", "x", [], 5⟩,
              ⟨2, jsTrim "Favorites", jsTrim "x", [], 6⟩],
             ⟨2, jsTrim "Favorites", jsTrim "x", [], 6⟩) ∧
      NamesUniquePerOwner [⟨1, "Favorites", "x", [], 5⟩,
                           ⟨2, jsTrim "Favorites", jsTrim "x", [], 6⟩]) := by
  constructor
  · exact (createPlaylist_keeps_names_unique [⟨1, "Favorites", "x", [], 5⟩] 5 2
      "Favorites" "x" (by decide) (by decide)
      (List.pairwise_singleton _ _)).1
      ⟨⟨1, "Favorites", "x", [], 5⟩, by simp, rfl, by decide⟩
  · exact (createPlaylist_keeps_names_unique [⟨1, "Favorites", "x", [], 5⟩] 6 2
      "Favorites" "x" (by decide) (by decide)
      (List.pairwise_singleton _ _)).2 (by decide)

/-- C7 counterexample: updatePlaylist renames playlist 2 of owner 5 from "B" to "A"
while the same owner already has playlist 1 named "A"; the update succeeds and the
store then violates per-owner name uniqueness. -/
theorem updatePlaylist_breaks_name_uniqueness :
    updatePlaylist [⟨1, "A", "d", [], 5⟩, ⟨2, "B", "d", [], 5⟩] 2 5 (some "A") none =
      .ok ([⟨1, "A", "d", [], 5⟩, ⟨2, "A", "d", [], 5⟩], ⟨2, "A", "d", [], 5⟩) ∧
    ¬ NamesUniquePerOwner [⟨1, "A", "d", [], 5⟩, ⟨2, "A", "d", [], 5⟩] := by
  constructor
  · decide
  · intro h
    have := (List.pairwise_cons.mp h).1 ⟨2, "A", "d", [], 5⟩ (by simp)
    rcases this with h5 | hA
    · exact h5 rfl
    · exact hA rfl

lemma isVideoLikeBy_eq_true {videoId userId : Nat} {r : LikeRec} :
    isVideoLikeBy videoId userId r = true ↔
      r.video = some videoId ∧ r.likedBy = userId := by
  simp [isVideoLikeBy]

/-- C2 (amended): on every database-reachable store (distinct primary keys, no two
records clashing on the unique index, ids below the next free key) in which the target
video exists, two successive toggle-like calls for one pair both succeed, the second
call reports the state the pair had before the first call (in particular NOT_LIKED
whenever no like existed initially), the presence of a like for the pair is restored
to its initial value, and the total like count of the target returns to its value
before the first toggle. -/
theorem toggleVideoLike_twice_restores (s : LikeStore) (videoId userId t₁ t₂ : Nat)
    (hwf : WfLikes s) (hv : s.videoIds.contains videoId = true) :
    ∃ s₁ r₁ s₂ r₂,
      toggleVideoLike s videoId userId t₁ = .ok (s₁, r₁) ∧
      toggleVideoLike s₁ videoId userId t₂ = .ok (s₂, r₂) ∧
      r₂.isLiked = s.likes.any (isVideoLikeBy videoId userId) ∧
      s₂.likes.any (isVideoLikeBy videoId userId)
        = s.likes.any (isVideoLikeBy videoId userId) ∧
      countVideoLikes s₂.likes videoId = countVideoLikes s.likes videoId := by
  obtain ⟨hids, hkeys, hbelow⟩ := hwf
  cases hfind : s.likes.find? (isVideoLikeBy videoId userId) with
  | some ex =>
    obtain ⟨hpex, l₁, l₂, hsplit, hl₁⟩ := find?_split hfind
    have hexv : ex.video = some videoId := (isVideoLikeBy_eq_true.mp hpex).1
    have hexu : ex.likedBy = userId := (isVideoLikeBy_eq_true.mp hpex).2
    have hl₁id : ∀ x ∈ l₁, (x.id == ex.id) = false := by
      rw [hsplit] at hids
      intro x hx
      exact beq_eq_false_iff_ne.mpr
        ((List.pairwise_append.mp hids).2.2 x hx ex (by simp))
    have hdel : deleteFirstBy (fun r => r.id == ex.id) s.likes = l₁ ++ l₂ := by
      rw [hsplit]
      exact deleteFirstBy_append_cons hl₁id (by simp) l₂
    have h1 : toggleVideoLike s videoId userId t₁ =
        .ok ({ s with likes := l₁ ++ l₂ },
             ⟨false, countVideoLikes (l₁ ++ l₂) videoId⟩) := by
      simp only [toggleVideoLike, hv, Bool.not_true, Bool.false_eq_true, if_false,
        hfind, hdel]
    have hnopair : ∀ x ∈ l₁ ++ l₂, isVideoLikeBy videoId userId x = false := by
      intro x hx
      rcases List.mem_append.mp hx with hxl | hxr
      · exact hl₁ x hxl
      · rcases Bool.eq_false_or_eq_true (isVideoLikeBy videoId userId x) with ht | hf
        swap
        · exact hf
        · exfalso
          rw [hsplit] at hkeys
          have hcl := (List.pairwise_cons.mp (List.pairwise_append.mp hkeys).2.1).1 x hxr
          have hxv : x.video = some videoId := (isVideoLikeBy_eq_true.mp ht).1
          have hxu : x.likedBy = userId := (isVideoLikeBy_eq_true.mp ht).2
          rw [likeKeyClash, hexv, hexu, hxv, hxu] at hcl
          simp at hcl
    have hfind2 : (l₁ ++ l₂).find? (isVideoLikeBy videoId userId) = none :=
      List.find?_eq_none.mpr (fun x hx => by simp [hnopair x hx])
    have hany2 : (l₁ ++ l₂).any
        (fun x => likeKeyClash x (⟨s.nextId, some videoId, none, none, userId, t₂⟩ : LikeRec))
        = false :=
      List.any_eq_false.mpr (fun x hx => by
        have hsame : likeKeyClash x (⟨s.nextId, some videoId, none, none, userId, t₂⟩ : LikeRec)
            = isVideoLikeBy videoId userId x := rfl
        rw [hsame, hnopair x hx]
        simp)
    have h2 : toggleVideoLike { s with likes := l₁ ++ l₂ } videoId userId t₂ =
        .ok ({ s with
                likes := (l₁ ++ l₂) ++ [(⟨s.nextId, some videoId, none, none, userId, t₂⟩ : LikeRec)],
                nextId := s.nextId + 1 },
             ⟨true, countVideoLikes
                ((l₁ ++ l₂) ++ [(⟨s.nextId, some videoId, none, none, userId, t₂⟩ : LikeRec)])
                videoId⟩) := by
      simp only [toggleVideoLike, hv, Bool.not_true, Bool.false_eq_true, if_false,
        hfind2, likeCreate, hany2]
    have hanyS : s.likes.any (isVideoLikeBy videoId userId) = true :=
      List.any_eq_true.mpr ⟨ex, by rw [hsplit]; simp, hpex⟩
    refine ⟨_, _, _, _, h1, h2, ?_, ?_, ?_⟩
    · simp [hanyS]
    · have hone : ((l₁ ++ l₂) ++ [(⟨s.nextId, some videoId, none, none, userId, t₂⟩ : LikeRec)]).any
          (isVideoLikeBy videoId userId) = true :=
        List.any_eq_true.mpr ⟨(⟨s.nextId, some videoId, none, none, userId, t₂⟩ : LikeRec),
          by simp, by simp [isVideoLikeBy]⟩
      rw [hone, hanyS]
    · unfold countVideoLikes
      rw [hsplit]
      simp only [List.filter_append, List.length_append, List.filter_cons]
      simp [hexv]
      omega
  | none =>
    have hforall : ∀ x ∈ s.likes, isVideoLikeBy videoId userId x = false := by
      intro x hx
      have := List.find?_eq_none.mp hfind x hx
      simpa using this
    have hany1 : s.likes.any
        (fun x => likeKeyClash x (⟨s.nextId, some videoId, none, none, userId, t₁⟩ : LikeRec))
        = false :=
      List.any_eq_false.mpr (fun x hx => by
        have hsame : likeKeyClash x (⟨s.nextId, some videoId, none, none, userId, t₁⟩ : LikeRec)
            = isVideoLikeBy videoId userId x := rfl
        rw [hsame, hforall x hx]
        simp)
    have h1 : toggleVideoLike s videoId userId t₁ =
        .ok ({ s with
                likes := s.likes ++ [(⟨s.nextId, some videoId, none, none, userId, t₁⟩ : LikeRec)],
                nextId := s.nextId + 1 },
             ⟨true, countVideoLikes
                (s.likes ++ [(⟨s.nextId, some videoId, none, none, userId, t₁⟩ : LikeRec)])
                videoId⟩) := by
      simp only [toggleVideoLike, hv, Bool.not_true, Bool.false_eq_true, if_false,
        hfind, likeCreate, hany1]
    have hnew : isVideoLikeBy videoId userId
        (⟨s.nextId, some videoId, none, none, userId, t₁⟩ : LikeRec) = true := by
      simp [isVideoLikeBy]
    have hfind2 : (s.likes ++ [(⟨s.nextId, some videoId, none, none, userId, t₁⟩ : LikeRec)]).find?
        (isVideoLikeBy videoId userId)
        = some (⟨s.nextId, some videoId, none, none, userId, t₁⟩ : LikeRec) := by
      rw [find?_append_of_forall_false hforall]
      exact List.find?_cons_of_pos _ hnew
    have hokid : ∀ x ∈ s.likes, (x.id == s.nextId) = false := fun x hx =>
      beq_eq_false_iff_ne.mpr (Nat.ne_of_lt (hbelow x hx))
    have hdel2 : deleteFirstBy
        (fun r => r.id == (⟨s.nextId, some videoId, none, none, userId, t₁⟩ : LikeRec).id)
        (s.likes ++ [(⟨s.nextId, some videoId, none, none, userId, t₁⟩ : LikeRec)]) = s.likes := by
      have h := deleteFirstBy_append_cons hokid
        (a := ⟨s.nextId, some videoId, none, none, userId, t₁⟩) (by simp) []
      simpa using h
    have h2 : toggleVideoLike
        { s with
          likes := s.likes ++ [(⟨s.nextId, some videoId, none, none, userId, t₁⟩ : LikeRec)],
          nextId := s.nextId + 1 } videoId userId t₂ =
        .ok ({ s with likes := s.likes, nextId := s.nextId + 1 },
             ⟨false, countVideoLikes s.likes videoId⟩) := by
      simp only [toggleVideoLike, hv, Bool.not_true, Bool.false_eq_true, if_false,
        hfind2, hdel2]
    have hanyS : s.likes.any (isVideoLikeBy videoId userId) = false :=
      List.any_eq_false.mpr (fun x hx => by simp [hforall x hx])
    refine ⟨_, _, _, _, h1, h2, ?_, ?_, ?_⟩
    · simp [hanyS]
    · rfl
    · rfl

/-- Witness for C2 at the store with video 1, no likes, next primary key 0, user 7. -/
theorem toggleVideoLike_twice_restores_witness :
    ∃ s₁ r₁ s₂ r₂,
      toggleVideoLike ⟨[1], [], [], [], 0⟩ 1 7 1 = .ok (s₁, r₁) ∧
      toggleVideoLike s₁ 1 7 2 = .ok (s₂, r₂) ∧
      r₂.isLiked = (⟨[1], [], [], [], 0⟩ : LikeStore).likes.any (isVideoLikeBy 1 7) ∧
      s₂.likes.any (isVideoLikeBy 1 7)
        = (⟨[1], [], [], [], 0⟩ : LikeStore).likes.any (isVideoLikeBy 1 7) ∧
      countVideoLikes s₂.likes 1
        = countVideoLikes (⟨[1], [], [], [], 0⟩ : LikeStore).likes 1 :=
  toggleVideoLike_twice_restores ⟨[1], [], [], [], 0⟩ 1 7 1 2
    ⟨List.Pairwise.nil, List.Pairwise.nil, by simp [IdsBelow]⟩ rfl
